import Mathlib

/-!
Verification development for the miden-base transaction prologue and note
commitment scheme.

The note data model and its commitment functions (`Note.new`, `Note.get_hash`,
`Note.get_nullifier`) are embedded from `objects/src/notes/mod.rs`; the error
enumerations follow `objects/src/errors.rs`.  The hash primitive (`Hasher`) is
an external dependency of the repository (assumed collision-resistant and
deterministic); it is modelled as an injective encoding with domain separation
between the two-input `merge` compression and variable-length `hash_elements`
absorption.  The transaction prologue itself (validator and memory layout
builder) is MASM kernel code exercised only through its tests; it is modelled
from the specification where noted.
-/

-- BASIC TYPES
-- ===========================================================================

/-- Field element.  The concrete field is the external VM's prime field; none
of the verified operations perform field arithmetic (only equality tests and
packing), so elements are represented by their canonical natural-number
residues. -/
abbrev Felt := Nat

/-- A word: 4 field elements, the VM's native addressable value. -/
structure Word where
  e0 : Felt
  e1 : Felt
  e2 : Felt
  e3 : Felt
deriving DecidableEq

/-- The all-zero word. -/
def zeroWord : Word := ⟨0, 0, 0, 0⟩

/-- The elements of a word, in order. -/
def Word.toList (w : Word) : List Felt := [w.e0, w.e1, w.e2, w.e3]

/-- A digest is a word produced by the hash primitive.  In the source a
`Digest` wraps exactly 4 field elements and converts to and from `Word`. -/
abbrev Digest := Word

-- HASH PRIMITIVE (EXTERNAL DEPENDENCY)
-- ===========================================================================

/-- Injective encoding of a felt list into a natural number (model device for
the external hash). -/
def encodeFeltList : List Felt → Nat
  | [] => 0
  | x :: rest => Nat.pair x (encodeFeltList rest) + 1

/-- Modelled external primitive: two-to-one digest compression
`Hasher::merge(&[a, b])`.  The external RPO hash is assumed collision
resistant; the model realizes it as an injective encoding tagged `1` for
domain separation from `hash_elements`. -/
def Hasher.merge (a b : Digest) : Digest :=
  ⟨Nat.pair 1 (Nat.pair (encodeFeltList a.toList) (encodeFeltList b.toList)), 0, 0, 0⟩

/-- Modelled external primitive: variable-length absorption
`Hasher::hash_elements(&[Felt])`, tagged `2` for domain separation from
`merge`. -/
def Hasher.hashElements (xs : List Felt) : Digest :=
  ⟨Nat.pair 2 (encodeFeltList xs), 0, 0, 0⟩

/-- The default digest (`Digest::default()`), the all-zero word. -/
def Digest.default : Digest := zeroWord

-- NOTE ERRORS (objects/src/errors.rs)
-- ===========================================================================

/-- Errors arising from note construction, following the `NoteError` enum in
`objects/src/errors.rs` (variants relevant to `Note::new`). -/
inductive NoteError where
  | DuplicateFungibleAsset (faucet_id : Felt)
  | DuplicateNonFungibleAsset (asset : Word)
  | NoteScriptAssemblyError (msg : String)
  | TooManyAssets (num_assets : Nat)
  | TooManyInputs (num_inputs : Nat)
deriving DecidableEq

-- ASSETS
-- ===========================================================================

/-- An asset: fungible (faucet id and amount) or non-fungible (one word whose
id derives from a data hash).  Each asset occupies one word. -/
inductive Asset where
  | fungible (faucet_id : Felt) (amount : Nat)
  | nonFungible (data : Word)
deriving DecidableEq

/-- The word representation of an asset. -/
def Asset.toWord : Asset → Word
  | .fungible faucet_id amount => ⟨faucet_id, 0, 0, amount⟩
  | .nonFungible data => data

/-- Whether two assets are duplicates: fungible assets clash on equal faucet
ids, non-fungible assets on equality. -/
def Asset.isDupOf : Asset → Asset → Bool
  | .fungible f _, .fungible g _ => f = g
  | .nonFungible a, .nonFungible b => a = b
  | _, _ => false

/-- The note-error reported for a duplicated asset. -/
def Asset.dupError : Asset → NoteError
  | .fungible f _ => .DuplicateFungibleAsset f
  | .nonFungible a => .DuplicateNonFungibleAsset a

/-- First duplicate among a list of assets, if any. -/
def findDupAsset : List Asset → Option NoteError
  | [] => none
  | a :: rest => if rest.any (fun b => a.isDupOf b) then some a.dupError else findDupAsset rest

-- NOTE COMPONENTS (objects/src/notes)
-- ===========================================================================

/-- A compiled note script together with its MAST root hash. -/
structure NoteScript where
  hash : Digest
deriving DecidableEq

/-- Modelled from the spec: note-script compilation by the external assembler
(`NoteScript::new` in the private `script` module, not under `src/`).  The
assembler is an external collaborator; the model compiles every source string
to a script whose root commits to the source text. -/
def NoteScript.new (script_src : String) : Except NoteError NoteScript :=
  .ok ⟨Hasher.hashElements (script_src.toList.map Char.toNat)⟩

/-- Note inputs: field elements placed onto the stack before the note script
runs. -/
structure NoteInputs where
  inputs : List Felt
deriving DecidableEq

/-- Modelled from the spec: `NoteInputs` construction (the private `inputs`
module is not under `src/`).  Per the call site in `Note::new` — which uses no
error propagation on this call — the constructor is infallible. -/
def NoteInputs.new (inputs : List Felt) : NoteInputs := ⟨inputs⟩

/-- Modelled from the spec: the commitment to the note inputs. -/
def NoteInputs.hash (ni : NoteInputs) : Digest :=
  Hasher.hashElements ni.inputs

/-- A note vault: the assets carried by a note. -/
structure NoteVault where
  assets : List Asset
deriving DecidableEq

/-- Maximum number of assets in a note vault (spec: at most 1000 assets). -/
def MAX_ASSETS_PER_NOTE : Nat := 1000

/-- Modelled from the spec: `NoteVault::new` (the private `vault` module is
not under `src/`).  Fails when the assets exceed the maximum or contain
duplicates, per the documented contract of `Note::new`. -/
def NoteVault.new (assets : List Asset) : Except NoteError NoteVault :=
  if MAX_ASSETS_PER_NOTE < assets.length then
    .error (.TooManyAssets assets.length)
  else
    match findDupAsset assets with
    | some e => .error e
    | none => .ok ⟨assets⟩

/-- Modelled from the spec: the commitment to the note vault. -/
def NoteVault.hash (v : NoteVault) : Digest :=
  Hasher.hashElements (v.assets.flatMap fun a => a.toWord.toList)

-- NOTE (objects/src/notes/mod.rs)
-- ===========================================================================

/-- A note which can be used to transfer assets between accounts
(`objects/src/notes/mod.rs`). -/
structure Note where
  script : NoteScript
  inputs : NoteInputs
  vault : NoteVault
  serial_num : Word
deriving DecidableEq

/-- `Note::new`: builds a note from a script source, inputs, assets and a
serial number.  Field initializers evaluate in declaration order: the script
compiles first (propagating errors), `NoteInputs::new` is called without error
propagation, then `NoteVault::new` (propagating errors). -/
def Note.new (script_src : String) (inputs : List Felt) (assets : List Asset)
    (serial_num : Word) : Except NoteError Note := do
  let script ← NoteScript.new script_src
  let vault ← NoteVault.new assets
  .ok { script := script, inputs := NoteInputs.new inputs, vault := vault,
        serial_num := serial_num }

/-- `Note::get_hash`: the commitment to a note, computed as
`hash(hash(hash(hash(serial_num, [0;4]), script_hash), input_hash), vault_hash)`. -/
def Note.get_hash (n : Note) : Digest :=
  let serial_num_hash := Hasher.merge n.serial_num Digest.default
  let merge_script := Hasher.merge serial_num_hash n.script.hash
  let recipient := Hasher.merge merge_script n.inputs.hash
  Hasher.merge recipient n.vault.hash

/-- The element sequence absorbed by `Note::get_nullifier`: serial number,
then script hash, then inputs hash, then vault hash. -/
def Note.nullifierPreimage (n : Note) : List Felt :=
  n.serial_num.toList ++ n.script.hash.toList ++ n.inputs.hash.toList ++ n.vault.hash.toList

/-- `Note::get_nullifier`: the nullifier of a note, computed as
`hash_elements(serial_num ‖ script_hash ‖ input_hash ‖ vault_hash)`. -/
def Note.get_nullifier (n : Note) : Digest :=
  Hasher.hashElements n.nullifierPreimage

/-- The note recipient as the specification words it:
`merge(merge(merge(serial_num, [0;4]), script_hash), inputs_hash)`. -/
def specRecipient (n : Note) : Digest :=
  Hasher.merge (Hasher.merge (Hasher.merge n.serial_num zeroWord) n.script.hash) n.inputs.hash

-- ACCOUNTS (prologue data model)
-- ===========================================================================

/-- Account types distinguished by the account id's bit pattern. -/
inductive AccountType where
  | regularUpdatableCode
  | regularImmutableCode
  | fungibleFaucet
  | nonFungibleFaucet
deriving DecidableEq

/-- Modelled from the spec: the account id's bit pattern encodes the account
type; the model designates two bits of the identifier for it. -/
def accountTypeOf (id : Felt) : AccountType :=
  match id % 4 with
  | 0 => .regularUpdatableCode
  | 1 => .regularImmutableCode
  | 2 => .fungibleFaucet
  | _ => .nonFungibleFaucet

/-- An account procedure: procedure root plus its storage window. -/
structure AccountProcedureInfo where
  root : Digest
  storageOffset : Nat
  storageSize : Nat
deriving DecidableEq

/-- Account code: the ordered procedure table. -/
structure AccountCode where
  procedures : List AccountProcedureInfo
deriving DecidableEq

/-- Modelled from the spec: the account code commitment over the ordered
procedure table. -/
def AccountCode.commitment (c : AccountCode) : Digest :=
  Hasher.hashElements
    (c.procedures.flatMap fun p => p.root.toList ++ [p.storageOffset, p.storageSize])

/-- Account storage: the ordered value slots. -/
structure AccountStorage where
  slots : List Word
deriving DecidableEq

/-- Modelled from the spec: the account storage commitment over the ordered
slots. -/
def AccountStorage.commitment (s : AccountStorage) : Digest :=
  Hasher.hashElements (s.slots.flatMap Word.toList)

/-- The reserved slot 0 of the account storage. -/
def AccountStorage.slot0 (s : AccountStorage) : Word :=
  s.slots.headD zeroWord

/-- An account snapshot: id, nonce, vault commitment, storage and code. -/
structure Account where
  id : Felt
  nonce : Felt
  vaultRoot : Digest
  storage : AccountStorage
  code : AccountCode
deriving DecidableEq

/-- Modelled from the spec: the account commitment, a merge tree of fixed
4-leaf shape over id-and-nonce, vault root, storage root and code root. -/
def Account.hash (a : Account) : Digest :=
  Hasher.merge (Hasher.merge ⟨a.id, 0, 0, a.nonce⟩ a.vaultRoot)
    (Hasher.merge a.storage.commitment a.code.commitment)

/-- Modelled from the spec: `derive_id(seed, code_commitment,
storage_commitment)` — the account identifier derived from the
account-creation seed and the initial code and storage commitments (the
deriving code lives in the account modules, not under `src/`). -/
def derive_id (seed : Word) (codeCommitment storageCommitment : Digest) : Felt :=
  (Hasher.hashElements
    (seed.toList ++ codeCommitment.toList ++ storageCommitment.toList)).e0

/-- Modelled from the spec: the canonical digest of an empty sparse Merkle
tree, a fixed published constant of the external hashing collaborator (design
note: obtained as a constant, never re-derived).  The model fixes a stand-in
constant value. -/
def EMPTY_SMT_ROOT : Word := ⟨15321474589252129342, 17373224439259377994, 14311363918644529085, 15235193171420315471⟩

-- BLOCK HEADERS AND THE CHAIN MMR
-- ===========================================================================

/-- An immutable block header. -/
structure BlockHeader where
  prevHash : Digest
  chainRoot : Digest
  acctDbRoot : Digest
  nullifierDbRoot : Digest
  noteRoot : Digest
  kernelRoot : Digest
  proofHash : Digest
  txHash : Digest
  blockNum : Nat
  version : Nat
  timestamp : Nat
deriving DecidableEq

/-- Modelled from the spec: the commitment to a block header over all of its
fields. -/
def BlockHeader.hash (b : BlockHeader) : Digest :=
  Hasher.hashElements
    (b.prevHash.toList ++ b.chainRoot.toList ++ b.acctDbRoot.toList ++
      b.nullifierDbRoot.toList ++ b.noteRoot.toList ++ b.kernelRoot.toList ++
      b.proofHash.toList ++ b.txHash.toList ++ [b.blockNum, b.version, b.timestamp])

/-- MMR carry step: a new peak is merged with the existing peak of equal
height, propagating like a binary-counter carry (peaks kept in ascending
height order, lowest first). -/
def insertPeak : Nat × Digest → List (Nat × Digest) → List (Nat × Digest)
  | p, [] => [p]
  | (h, d), (h2, d2) :: t =>
    if h = h2 then insertPeak (h + 1, Hasher.merge d2 d) t else (h, d) :: (h2, d2) :: t

/-- The chain history tracker: an append-only Merkle Mountain Range over block
hashes.  `peaksAsc` keeps the peaks in ascending height order; `numLeaves` is
the leaf count. -/
structure ChainMmr where
  peaksAsc : List (Nat × Digest)
  numLeaves : Nat
deriving DecidableEq

/-- The empty chain tracker. -/
def ChainMmr.empty : ChainMmr := ⟨[], 0⟩

/-- `add_block(header, track)`: appends the block hash as a new leaf and
recomputes the peaks by the carry rule.  The `track` flag selects local
retention of the full header and does not affect the peaks or the count. -/
def ChainMmr.addBlock (m : ChainMmr) (leaf : Digest) (track : Bool) : ChainMmr :=
  { peaksAsc := insertPeak (0, leaf) m.peaksAsc, numLeaves := m.numLeaves + 1 }

/-- `peaks()`: the peak digests, most-significant (highest) first. -/
def ChainMmr.peaks (m : ChainMmr) : List Digest :=
  m.peaksAsc.reverse.map (fun p => p.2)

/-- `chain_length()`: the number of leaves. -/
def ChainMmr.chainLength (m : ChainMmr) : Nat := m.numLeaves

/-- Modelled from the spec: the commitment to the ordered peaks, checked
against the reference block header's chain root. -/
def hashPeaks (m : ChainMmr) : Digest :=
  Hasher.hashElements (m.peaks.flatMap Word.toList)

-- INPUT NOTES AND TRANSACTION INPUTS
-- ===========================================================================

/-- An input note as consumed by the prologue: its commitment components, its
metadata, its assets (one word each) and the block it originates from. -/
structure InputNote where
  serialNum : Word
  scriptRoot : Digest
  inputsHash : Digest
  assetsHash : Digest
  metadata : Word
  assets : List Word
  originBlockNum : Nat
deriving DecidableEq

/-- The note id: the note commitment, the four-level merge chain over serial
number, script root, inputs commitment and assets commitment. -/
def InputNote.id (n : InputNote) : Digest :=
  Hasher.merge
    (Hasher.merge (Hasher.merge (Hasher.merge n.serialNum zeroWord) n.scriptRoot)
      n.inputsHash)
    n.assetsHash

/-- The note nullifier: `hash_elements` over serial number, script root,
inputs commitment and assets commitment. -/
def InputNote.nullifier (n : InputNote) : Digest :=
  Hasher.hashElements
    (n.serialNum.toList ++ n.scriptRoot.toList ++ n.inputsHash.toList ++
      n.assetsHash.toList)

/-- The full inputs of a transaction: account snapshot, optional creation
seed, reference block header, chain tracker snapshot, ordered input notes,
per-note argument overrides keyed by note id, and the transaction script
root. -/
structure TransactionInputs where
  account : Account
  accountSeed : Option Word
  blockHeader : BlockHeader
  chainMmr : ChainMmr
  notes : List InputNote
  noteArgs : List (Digest × Word)
  txScriptRoot : Digest
deriving DecidableEq

/-- The args word for a note id: the caller-supplied override, or the all-zero
word when none was supplied for that id. -/
def argsFor : List (Digest × Word) → Digest → Word
  | [], _ => zeroWord
  | (k, v) :: rest, id => if k = id then v else argsFor rest id

-- VALIDATOR (modelled from the spec)
-- ===========================================================================

/-- The prologue's enumerated failure reasons (drawn from
`TransactionInputError` in `objects/src/errors.rs` and the transaction-kernel
error constants referenced by the prologue tests). -/
inductive PrologueError where
  | TooManyInputNotes
  | DuplicateInputNote
  | InconsistentChainRoot
  | InconsistentChainLength
  | InputNoteBlockNotInChainMmr
  | AccountSeedNotProvidedForNewAccount
  | AccountSeedProvidedForExistingAccount
  | AccountSeedDigestMismatch
  | FungibleFaucetReservedSlotMustBeEmpty
  | NonFungibleFaucetReservedSlotMustBeValidEmptySmt
  | StorageTooManySlots
  | TooManyProcedures
  | StorageOffsetOutOfBounds
  | PureProcedureWithStorageOffset
deriving DecidableEq

/-- Maximum number of input notes per transaction (configured max). -/
def MAX_INPUT_NOTES : Nat := 1023

/-- Maximum number of account storage slots. -/
def MAX_STORAGE_SLOTS : Nat := 255

/-- Maximum number of account procedures. -/
def MAX_PROCEDURES : Nat := 256

/-- Modelled from the spec, validator step 1: the input-note count is bounded
by the configured maximum. -/
def checkNoteCount (tx : TransactionInputs) : Except PrologueError Unit :=
  if MAX_INPUT_NOTES < tx.notes.length then .error .TooManyInputNotes else .ok ()

/-- Modelled from the spec, validator step 2: input note ids are pairwise
distinct. -/
def checkNoDupNotes (tx : TransactionInputs) : Except PrologueError Unit :=
  if (tx.notes.map InputNote.id).Nodup then .ok () else .error .DuplicateInputNote

/-- Modelled from the spec, validator step 3: the reference block and every
note's origin block are consistent with the chain tracker. -/
def checkChain (tx : TransactionInputs) : Except PrologueError Unit :=
  if tx.blockHeader.chainRoot ≠ hashPeaks tx.chainMmr then .error .InconsistentChainRoot
  else if tx.blockHeader.blockNum ≠ tx.chainMmr.chainLength then
    .error .InconsistentChainLength
  else if tx.notes.all (fun n => decide (n.originBlockNum < tx.chainMmr.chainLength)) then
    .ok ()
  else .error .InputNoteBlockNotInChainMmr

/-- Modelled from the spec: the faucet reserved-slot rules for a newly created
account.  A new fungible faucet's slot 0 must be the all-zero word; a new
non-fungible faucet's slot 0 must equal the canonical empty-SMT digest. -/
def checkReservedSlot (acct : Account) : Except PrologueError Unit :=
  match accountTypeOf acct.id with
  | .fungibleFaucet =>
    if acct.storage.slot0 = zeroWord then .ok ()
    else .error .FungibleFaucetReservedSlotMustBeEmpty
  | .nonFungibleFaucet =>
    if acct.storage.slot0 = EMPTY_SMT_ROOT then .ok ()
    else .error .NonFungibleFaucetReservedSlotMustBeValidEmptySmt
  | _ => .ok ()

/-- Modelled from the spec, validator step 4: seed presence must match account
newness (nonce zero); for a new account the id recomputed from the seed must
equal the declared id, and the faucet reserved-slot rules must hold. -/
def checkAccount (tx : TransactionInputs) : Except PrologueError Unit :=
  match tx.accountSeed with
  | none =>
    if tx.account.nonce = 0 then .error .AccountSeedNotProvidedForNewAccount else .ok ()
  | some seed =>
    if tx.account.nonce ≠ 0 then .error .AccountSeedProvidedForExistingAccount
    else if derive_id seed tx.account.code.commitment tx.account.storage.commitment
        = tx.account.id then
      checkReservedSlot tx.account
    else .error .AccountSeedDigestMismatch

/-- First procedure violating the storage-window rules, if any: a pure
procedure (zero storage size) must declare a zero offset, and every window
must lie within the slot count. -/
def findBadProc (numSlots : Nat) : List AccountProcedureInfo → Option PrologueError
  | [] => none
  | p :: rest =>
    if p.storageSize = 0 ∧ p.storageOffset ≠ 0 then some .PureProcedureWithStorageOffset
    else if numSlots < p.storageOffset + p.storageSize then some .StorageOffsetOutOfBounds
    else findBadProc numSlots rest

/-- Modelled from the spec, validator step 5: storage and code bounds. -/
def checkBounds (tx : TransactionInputs) : Except PrologueError Unit :=
  if MAX_STORAGE_SLOTS < tx.account.storage.slots.length then .error .StorageTooManySlots
  else if MAX_PROCEDURES < tx.account.code.procedures.length then .error .TooManyProcedures
  else
    match findBadProc tx.account.storage.slots.length tx.account.code.procedures with
    | some e => .error e
    | none => .ok ()

/-- Modelled from the spec: the full ordered validator, each check
short-circuiting on first failure. -/
def validate (tx : TransactionInputs) : Except PrologueError Unit :=
  match checkNoteCount tx with
  | .error e => .error e
  | .ok _ =>
    match checkNoDupNotes tx with
    | .error e => .error e
    | .ok _ =>
      match checkChain tx with
      | .error e => .error e
      | .ok _ =>
        match checkAccount tx with
        | .error e => .error e
        | .ok _ => checkBounds tx

-- MEMORY IMAGE AND POINTER CONSTANTS
-- ===========================================================================

/-- The word-addressed memory image. -/
def Mem := Nat → Word

/-- Write one word at an address. -/
def Mem.write (m : Mem) (a : Nat) (w : Word) : Mem :=
  fun x => if x = a then w else m x

/-- Apply a list of writes in order (later writes win). -/
def writeMany (m : Mem) : List (Nat × Word) → Mem
  | [] => m
  | p :: rest => writeMany (m.write p.1 p.2) rest

/-- The fresh all-zero memory image. -/
def initMem : Mem := fun _ => zeroWord

/-- Modelled from the spec: the frozen pointer-constant table of the external
memory protocol (one versioned configuration object; the concrete offsets are
the model's rendition of the protocol). -/
def BLK_HASH_PTR : Nat := 0
def ACCT_ID_PTR : Nat := 1
def INIT_ACCT_HASH_PTR : Nat := 2
def INPUT_NOTES_COMMITMENT_PTR : Nat := 3
def INIT_NONCE_PTR : Nat := 4
def TX_SCRIPT_ROOT_PTR : Nat := 5
def PREV_BLOCK_HASH_PTR : Nat := 100
def CHAIN_ROOT_PTR : Nat := 101
def ACCT_DB_ROOT_PTR : Nat := 102
def NULLIFIER_DB_ROOT_PTR : Nat := 103
def TX_HASH_PTR : Nat := 104
def PROOF_HASH_PTR : Nat := 105
def KERNEL_ROOT_PTR : Nat := 106
def NOTE_ROOT_PTR : Nat := 107
def BLOCK_METADATA_PTR : Nat := 108
def CHAIN_MMR_NUM_LEAVES_PTR : Nat := 200
def CHAIN_MMR_PEAKS_PTR : Nat := 201
def NATIVE_ACCT_ID_AND_NONCE_PTR : Nat := 400
def NATIVE_ACCT_VAULT_ROOT_PTR : Nat := 401
def NATIVE_ACCT_STORAGE_COMMITMENT_PTR : Nat := 402
def NATIVE_ACCT_CODE_COMMITMENT_PTR : Nat := 403
def NATIVE_NUM_ACCT_STORAGE_SLOTS_PTR : Nat := 404
def NATIVE_NUM_ACCT_PROCEDURES_PTR : Nat := 405
def NATIVE_ACCT_STORAGE_SLOTS_SECTION_PTR : Nat := 500
def NATIVE_ACCT_PROCEDURES_SECTION_PTR : Nat := 700
def INPUT_NOTE_SECTION_OFFSET : Nat := 1048576
def INPUT_NOTE_STRIDE : Nat := 1024
def INPUT_NOTE_ID_OFFSET : Nat := 0
def INPUT_NOTE_SERIAL_NUM_OFFSET : Nat := 1
def INPUT_NOTE_SCRIPT_ROOT_OFFSET : Nat := 2
def INPUT_NOTE_INPUTS_HASH_OFFSET : Nat := 3
def INPUT_NOTE_ASSETS_HASH_OFFSET : Nat := 4
def INPUT_NOTE_METADATA_OFFSET : Nat := 5
def INPUT_NOTE_ARGS_OFFSET : Nat := 6
def INPUT_NOTE_NUM_ASSETS_OFFSET : Nat := 7
def INPUT_NOTE_ASSETS_OFFSET : Nat := 8

/-- Base address of the per-note sub-region of note `i`:
`section + (i + 1) · stride`. -/
def noteBase (i : Nat) : Nat :=
  INPUT_NOTE_SECTION_OFFSET + (i + 1) * INPUT_NOTE_STRIDE

/-- Address of the caller-supplied args word of note `i`. -/
def noteArgsAddr (i : Nat) : Nat :=
  noteBase i + INPUT_NOTE_ARGS_OFFSET

/-- A word carrying one scalar in element 0. -/
def natWord (n : Nat) : Word := ⟨n, 0, 0, 0⟩

-- MEMORY LAYOUT BUILDER (modelled from the spec)
-- ===========================================================================

/-- Consecutive writes of a word list starting at `base + i`. -/
def writesFrom (base : Nat) : Nat → List Word → List (Nat × Word)
  | _, [] => []
  | i, w :: rest => (base + i, w) :: writesFrom base (i + 1) rest

/-- Modelled from the spec, build step 2a: the Global Inputs region. -/
def globalWrites (tx : TransactionInputs) : List (Nat × Word) :=
  [(BLK_HASH_PTR, tx.blockHeader.hash),
   (ACCT_ID_PTR, natWord tx.account.id),
   (INIT_ACCT_HASH_PTR, tx.account.hash),
   (INPUT_NOTES_COMMITMENT_PTR,
     Hasher.hashElements (tx.notes.flatMap fun n => n.nullifier.toList)),
   (INIT_NONCE_PTR, natWord tx.account.nonce),
   (TX_SCRIPT_ROOT_PTR, tx.txScriptRoot)]

/-- Modelled from the spec, build step 2b: the Block Data region, with block
number, protocol version and timestamp packed into one metadata word. -/
def blockWrites (tx : TransactionInputs) : List (Nat × Word) :=
  [(PREV_BLOCK_HASH_PTR, tx.blockHeader.prevHash),
   (CHAIN_ROOT_PTR, tx.blockHeader.chainRoot),
   (ACCT_DB_ROOT_PTR, tx.blockHeader.acctDbRoot),
   (NULLIFIER_DB_ROOT_PTR, tx.blockHeader.nullifierDbRoot),
   (TX_HASH_PTR, tx.blockHeader.txHash),
   (PROOF_HASH_PTR, tx.blockHeader.proofHash),
   (KERNEL_ROOT_PTR, tx.blockHeader.kernelRoot),
   (NOTE_ROOT_PTR, tx.blockHeader.noteRoot),
   (BLOCK_METADATA_PTR,
     ⟨tx.blockHeader.blockNum, tx.blockHeader.version, tx.blockHeader.timestamp, 0⟩)]

/-- Modelled from the spec, build step 3: extend a local copy of the chain
tracker with the current reference block, then write the leaf count and the
peaks (most significant first, contiguous from the peaks base). -/
def chainWrites (tx : TransactionInputs) : List (Nat × Word) :=
  let localMmr := tx.chainMmr.addBlock tx.blockHeader.hash true
  (CHAIN_MMR_NUM_LEAVES_PTR, natWord localMmr.chainLength)
    :: writesFrom CHAIN_MMR_PEAKS_PTR 0 localMmr.peaks

/-- Modelled from the spec, build step 4: the Account Data region — packed
id-and-nonce, vault root, storage commitment, code commitment, slot count,
packed slots, procedure count, packed procedures. -/
def acctWrites (tx : TransactionInputs) : List (Nat × Word) :=
  [(NATIVE_ACCT_ID_AND_NONCE_PTR, ⟨tx.account.id, 0, 0, tx.account.nonce⟩),
   (NATIVE_ACCT_VAULT_ROOT_PTR, tx.account.vaultRoot),
   (NATIVE_ACCT_STORAGE_COMMITMENT_PTR, tx.account.storage.commitment),
   (NATIVE_ACCT_CODE_COMMITMENT_PTR, tx.account.code.commitment),
   (NATIVE_NUM_ACCT_STORAGE_SLOTS_PTR, natWord tx.account.storage.slots.length)]
  ++ writesFrom NATIVE_ACCT_STORAGE_SLOTS_SECTION_PTR 0 tx.account.storage.slots
  ++ [(NATIVE_NUM_ACCT_PROCEDURES_PTR, natWord tx.account.code.procedures.length)]
  ++ writesFrom NATIVE_ACCT_PROCEDURES_SECTION_PTR 0
      (tx.account.code.procedures.flatMap fun p =>
        [p.root, ⟨p.storageOffset, p.storageSize, 0, 0⟩])

/-- Modelled from the spec, build step 5 (per note): the per-note sub-region
of note `i` — id, serial number, script root, inputs commitment, assets
commitment, metadata, caller-supplied args (zero word if none supplied for
that note id), asset count, and each asset word. -/
def noteRegionWrites (args : List (Digest × Word)) (i : Nat) (n : InputNote) :
    List (Nat × Word) :=
  [(noteBase i + INPUT_NOTE_ID_OFFSET, n.id),
   (noteBase i + INPUT_NOTE_SERIAL_NUM_OFFSET, n.serialNum),
   (noteBase i + INPUT_NOTE_SCRIPT_ROOT_OFFSET, n.scriptRoot),
   (noteBase i + INPUT_NOTE_INPUTS_HASH_OFFSET, n.inputsHash),
   (noteBase i + INPUT_NOTE_ASSETS_HASH_OFFSET, n.assetsHash),
   (noteBase i + INPUT_NOTE_METADATA_OFFSET, n.metadata),
   (noteBase i + INPUT_NOTE_ARGS_OFFSET, argsFor args n.id),
   (noteBase i + INPUT_NOTE_NUM_ASSETS_OFFSET, natWord n.assets.length)]
  ++ writesFrom (noteBase i + INPUT_NOTE_ASSETS_OFFSET) 0 n.assets

/-- The per-note sub-regions of the input notes, in caller-supplied order,
from starting index `i`. -/
def inputNotesWrites (args : List (Digest × Word)) : Nat → List InputNote →
    List (Nat × Word)
  | _, [] => []
  | i, n :: rest => noteRegionWrites args i n ++ inputNotesWrites args (i + 1) rest

/-- Modelled from the spec, build step 5: the Input Notes Data region — note
count, one nullifier per note, then the per-note sub-regions. -/
def notesWrites (tx : TransactionInputs) : List (Nat × Word) :=
  (INPUT_NOTE_SECTION_OFFSET, natWord tx.notes.length)
    :: writesFrom (INPUT_NOTE_SECTION_OFFSET + 1) 0 (tx.notes.map InputNote.nullifier)
    ++ inputNotesWrites tx.noteArgs 0 tx.notes

/-- The complete ordered write sequence of the prologue. -/
def layoutWrites (tx : TransactionInputs) : List (Nat × Word) :=
  globalWrites tx ++ blockWrites tx ++ chainWrites tx ++ acctWrites tx ++ notesWrites tx

/-- The memory image the prologue lays out. -/
def layoutMemory (tx : TransactionInputs) : Mem :=
  writeMany initMem (layoutWrites tx)

/-- Modelled from the spec: the prologue — the validator must pass before any
write, then the full context is written into a fresh memory image. -/
def buildMemory (tx : TransactionInputs) : Except PrologueError Mem :=
  match validate tx with
  | .error e => .error e
  | .ok _ => .ok (layoutMemory tx)

-- POPCOUNT AND THE MMR PEAK INVARIANT
-- ===========================================================================

/-- Population count: the number of set bits of a natural number. -/
def popcount (n : Nat) : Nat :=
  if h : n = 0 then 0 else popcount (n / 2) + n % 2
decreasing_by exact Nat.div_lt_self (Nat.pos_of_ne_zero h) (by omega)

/-- The leaf count represented by a peak list: `2^h` per peak of height `h`. -/
def heightsVal : List (Nat × Digest) → Nat
  | [] => 0
  | (h, _) :: t => 2 ^ h + heightsVal t

/-- Well-formed ascending peak list with all heights at least `lb`: heights
strictly increase from the head. -/
def PeaksGood : Nat → List (Nat × Digest) → Prop
  | _, [] => True
  | lb, (h, _) :: t => lb ≤ h ∧ PeaksGood (h + 1) t

/-- Well-formedness of a chain tracker: ascending peaks representing exactly
the leaf count. -/
def ChainMmr.Wf (m : ChainMmr) : Prop :=
  PeaksGood 0 m.peaksAsc ∧ heightsVal m.peaksAsc = m.numLeaves

-- CONCRETE INPUTS
-- ===========================================================================

/-- A reference block header consistent with a given chain tracker snapshot. -/
def wHeaderFor (m : ChainMmr) : BlockHeader :=
  { prevHash := zeroWord, chainRoot := hashPeaks m, acctDbRoot := zeroWord,
    nullifierDbRoot := zeroWord, noteRoot := zeroWord, kernelRoot := zeroWord,
    proofHash := zeroWord, txHash := zeroWord, blockNum := m.chainLength,
    version := 1, timestamp := 1717 }

/-- An existing account (nonzero nonce, no creation seed). -/
def wAccountExisting : Account :=
  { id := 7, nonce := 1, vaultRoot := zeroWord, storage := ⟨[]⟩, code := ⟨[]⟩ }

/-- A transaction on an existing account with no input notes. -/
def txExisting : TransactionInputs :=
  { account := wAccountExisting, accountSeed := none,
    blockHeader := wHeaderFor ChainMmr.empty, chainMmr := ChainMmr.empty,
    notes := [], noteArgs := [], txScriptRoot := zeroWord }

/-- A one-leaf chain tracker. -/
def wMmr1 : ChainMmr := ChainMmr.empty.addBlock (Hasher.hashElements [99]) true

/-- An input note carrying one asset. -/
def wNote0 : InputNote :=
  { serialNum := ⟨1, 0, 0, 0⟩, scriptRoot := zeroWord, inputsHash := zeroWord,
    assetsHash := zeroWord, metadata := zeroWord, assets := [⟨5, 0, 0, 9⟩],
    originBlockNum := 0 }

/-- An input note carrying no assets. -/
def wNote1 : InputNote :=
  { serialNum := ⟨2, 0, 0, 0⟩, scriptRoot := zeroWord, inputsHash := zeroWord,
    assetsHash := zeroWord, metadata := zeroWord, assets := [],
    originBlockNum := 0 }

/-- A transaction with two input notes and args supplied only for the first
note's id. -/
def txNotes : TransactionInputs :=
  { account := wAccountExisting, accountSeed := none,
    blockHeader := wHeaderFor wMmr1, chainMmr := wMmr1,
    notes := [wNote0, wNote1], noteArgs := [(wNote0.id, ⟨91, 91, 91, 91⟩)],
    txScriptRoot := zeroWord }

/-- A creation seed whose derived id decodes as a fungible faucet. -/
def seedFung : Word := ⟨0, 0, 0, 0⟩

/-- A creation seed whose derived id decodes as a non-fungible faucet. -/
def seedNonFung : Word := ⟨1, 0, 0, 0⟩

/-- A transaction creating the given account with the given seed. -/
def newAccountTx (a : Account) (seed : Word) : TransactionInputs :=
  { account := a, accountSeed := some seed,
    blockHeader := wHeaderFor ChainMmr.empty, chainMmr := ChainMmr.empty,
    notes := [], noteArgs := [], txScriptRoot := zeroWord }

/-- A new fungible faucet with an all-zero reserved slot and a matching
seed. -/
def acctFungOk : Account :=
  { id := derive_id seedFung (AccountCode.commitment ⟨[]⟩)
      (AccountStorage.commitment ⟨[zeroWord]⟩),
    nonce := 0, vaultRoot := zeroWord, storage := ⟨[zeroWord]⟩, code := ⟨[]⟩ }

def txFungOk : TransactionInputs := newAccountTx acctFungOk seedFung

/-- A new fungible faucet with a non-empty reserved slot and a matching
seed. -/
def acctFungBad : Account :=
  { id := derive_id seedFung (AccountCode.commitment ⟨[]⟩)
      (AccountStorage.commitment ⟨[⟨9, 9, 9, 9⟩]⟩),
    nonce := 0, vaultRoot := zeroWord, storage := ⟨[⟨9, 9, 9, 9⟩]⟩, code := ⟨[]⟩ }

def txFungBad : TransactionInputs := newAccountTx acctFungBad seedFung

/-- A new non-fungible faucet whose reserved slot holds the canonical
empty-SMT digest, with a matching seed. -/
def acctNonFungOk : Account :=
  { id := derive_id seedNonFung (AccountCode.commitment ⟨[]⟩)
      (AccountStorage.commitment ⟨[EMPTY_SMT_ROOT]⟩),
    nonce := 0, vaultRoot := zeroWord, storage := ⟨[EMPTY_SMT_ROOT]⟩, code := ⟨[]⟩ }

def txNonFungOk : TransactionInputs := newAccountTx acctNonFungOk seedNonFung

/-- A new non-fungible faucet whose reserved slot differs from the canonical
empty-SMT digest, with a matching seed. -/
def acctNonFungBad : Account :=
  { id := derive_id seedNonFung (AccountCode.commitment ⟨[]⟩)
      (AccountStorage.commitment ⟨[⟨9, 9, 9, 9⟩]⟩),
    nonce := 0, vaultRoot := zeroWord, storage := ⟨[⟨9, 9, 9, 9⟩]⟩, code := ⟨[]⟩ }

def txNonFungBad : TransactionInputs := newAccountTx acctNonFungBad seedNonFung

/-- A new account whose declared id does not match the id derived from its
seed. -/
def acctSeedBad : Account :=
  { id := 0, nonce := 0, vaultRoot := zeroWord, storage := ⟨[]⟩, code := ⟨[]⟩ }

def txSeedBad : TransactionInputs := newAccountTx acctSeedBad seedFung

/-- Three block hashes to append to the chain tracker. -/
def wBlocks : List (Digest × Bool) :=
  [(Hasher.hashElements [11], true), (Hasher.hashElements [12], true),
   (Hasher.hashElements [13], false)]

-- MMR INVARIANT LEMMAS
-- ===========================================================================

theorem popcount_zero : popcount 0 = 0 := by
  unfold popcount
  rfl

theorem popcount_of_ne_zero (n : Nat) (h : n ≠ 0) :
    popcount n = popcount (n / 2) + n % 2 := by
  rw [popcount]
  simp [h]

theorem popcount_two_mul (n : Nat) : popcount (2 * n) = popcount n := by
  rcases Nat.eq_zero_or_pos n with h | h
  · simp [h, popcount_zero]
  · rw [popcount_of_ne_zero (2 * n) (by omega)]
    have h2 : 2 * n / 2 = n := by omega
    have h3 : 2 * n % 2 = 0 := by omega
    rw [h2, h3]
    rfl

theorem popcount_two_mul_add_one (n : Nat) :
    popcount (2 * n + 1) = popcount n + 1 := by
  rw [popcount_of_ne_zero (2 * n + 1) (by omega)]
  have h2 : (2 * n + 1) / 2 = n := by omega
  have h3 : (2 * n + 1) % 2 = 1 := by omega
  rw [h2, h3]

/-- Adding `2^h` to a multiple of `2^(h+1)` sets one more bit. -/
theorem popcount_pow_add (h : Nat) :
    ∀ k : Nat, 2 ^ (h + 1) ∣ k → popcount (2 ^ h + k) = popcount k + 1 := by
  induction h with
  | zero =>
    intro k hk
    obtain ⟨j, rfl⟩ := hk
    have e1 : 2 ^ 0 + 2 ^ 1 * j = 2 * j + 1 := by ring
    have e2 : 2 ^ 1 * j = 2 * j := by ring
    rw [e1, e2, popcount_two_mul_add_one, popcount_two_mul]
  | succ h ih =>
    intro k hk
    obtain ⟨j, rfl⟩ := hk
    have e1 : 2 ^ (h + 1) + 2 ^ (h + 1 + 1) * j = 2 * (2 ^ h + 2 ^ (h + 1) * j) := by ring
    have e2 : 2 ^ (h + 1 + 1) * j = 2 * (2 ^ (h + 1) * j) := by ring
    rw [e1, e2, popcount_two_mul, popcount_two_mul]
    exact ih (2 ^ (h + 1) * j) ⟨j, rfl⟩

theorem peaksGood_mono {lb lb2 : Nat} {ps : List (Nat × Digest)}
    (hle : lb2 ≤ lb) (hg : PeaksGood lb ps) : PeaksGood lb2 ps := by
  cases ps with
  | nil => trivial
  | cons p t => exact ⟨Nat.le_trans hle hg.1, hg.2⟩

theorem heightsVal_dvd (ps : List (Nat × Digest)) :
    ∀ lb, PeaksGood lb ps → 2 ^ lb ∣ heightsVal ps := by
  induction ps with
  | nil => intro lb _; simp [heightsVal]
  | cons p t ih =>
    intro lb hg
    obtain ⟨h, d⟩ := p
    have h1 : 2 ^ lb ∣ 2 ^ h := Nat.pow_dvd_pow 2 hg.1
    have h2 : 2 ^ lb ∣ heightsVal t := by
      have := ih (h + 1) hg.2
      exact Nat.dvd_trans (Nat.pow_dvd_pow 2 (Nat.le_succ_of_le hg.1)) this
    exact Nat.dvd_add h1 h2

/-- A well-formed peak list has exactly one peak per set bit of its leaf
count. -/
theorem peaks_length_eq_popcount (ps : List (Nat × Digest)) :
    ∀ lb, PeaksGood lb ps → ps.length = popcount (heightsVal ps) := by
  induction ps with
  | nil => intro lb _; simp [heightsVal, popcount_zero]
  | cons p t ih =>
    intro lb hg
    obtain ⟨h, d⟩ := p
    have hdvd : 2 ^ (h + 1) ∣ heightsVal t := heightsVal_dvd t (h + 1) hg.2
    have : heightsVal ((h, d) :: t) = 2 ^ h + heightsVal t := rfl
    rw [this, popcount_pow_add h (heightsVal t) hdvd]
    simp [ih (h + 1) hg.2]

/-- The carry step preserves well-formedness and adds `2^h` to the represented
leaf count. -/
theorem insertPeak_spec (ps : List (Nat × Digest)) :
    ∀ h d, PeaksGood h ps →
      PeaksGood h (insertPeak (h, d) ps) ∧
      heightsVal (insertPeak (h, d) ps) = 2 ^ h + heightsVal ps := by
  induction ps with
  | nil =>
    intro h d _
    exact ⟨⟨Nat.le_refl h, trivial⟩, rfl⟩
  | cons p t ih =>
    intro h d hg
    obtain ⟨h2, d2⟩ := p
    obtain ⟨hle, hg2⟩ := hg
    by_cases heq : h = h2
    · subst heq
      have hrec := ih (h + 1) (Hasher.merge d2 d) hg2
      constructor
      · rw [insertPeak, if_pos rfl]
        exact peaksGood_mono (Nat.le_succ h) hrec.1
      · rw [insertPeak, if_pos rfl, hrec.2]
        show 2 ^ (h + 1) + heightsVal t = 2 ^ h + (2 ^ h + heightsVal t)
        rw [pow_succ]
        ring
    · constructor
      · rw [insertPeak, if_neg heq]
        exact ⟨Nat.le_refl h, by omega, hg2⟩
      · rw [insertPeak, if_neg heq]
        rfl

theorem chainMmr_empty_wf : ChainMmr.empty.Wf :=
  ⟨trivial, rfl⟩

theorem chainMmr_addBlock_wf (m : ChainMmr) (leaf : Digest) (track : Bool)
    (hwf : m.Wf) : (m.addBlock leaf track).Wf := by
  have hspec := insertPeak_spec m.peaksAsc 0 leaf hwf.1
  refine ⟨hspec.1, ?_⟩
  show heightsVal (insertPeak (0, leaf) m.peaksAsc) = m.numLeaves + 1
  rw [hspec.2, hwf.2]
  omega

theorem chainMmr_foldl_wf (bs : List (Digest × Bool)) :
    ∀ m : ChainMmr, m.Wf →
      (bs.foldl (fun acc p => acc.addBlock p.1 p.2) m).Wf := by
  induction bs with
  | nil => intro m hwf; exact hwf
  | cons b rest ih =>
    intro m hwf
    exact ih (m.addBlock b.1 b.2) (chainMmr_addBlock_wf m b.1 b.2 hwf)

-- MEMORY READ LEMMAS
-- ===========================================================================

theorem mem_write_self (m : Mem) (a : Nat) (w : Word) : (m.write a w) a = w := by
  simp [Mem.write]

theorem mem_write_ne (m : Mem) (a x : Nat) (w : Word) (h : x ≠ a) :
    (m.write a w) x = m x := by
  simp [Mem.write, h]

theorem writeMany_append (l1 l2 : List (Nat × Word)) :
    ∀ m : Mem, writeMany m (l1 ++ l2) = writeMany (writeMany m l1) l2 := by
  induction l1 with
  | nil => intro m; rfl
  | cons p t ih => intro m; exact ih (m.write p.1 p.2)

theorem writeMany_skip (l : List (Nat × Word)) (a : Nat) :
    ∀ m : Mem, (∀ p ∈ l, p.1 ≠ a) → writeMany m l a = m a := by
  induction l with
  | nil => intro m _; rfl
  | cons p t ih =>
    intro m hall
    have h1 : writeMany (m.write p.1 p.2) t a = (m.write p.1 p.2) a :=
      ih (m.write p.1 p.2) (fun q hq => hall q (List.mem_cons_of_mem p hq))
    show writeMany (m.write p.1 p.2) t a = m a
    rw [h1, mem_write_ne m p.1 a p.2 (fun h => (hall p (List.mem_cons_self p t)) h.symm)]

theorem writesFrom_addr_ge (base : Nat) (l : List Word) :
    ∀ i, ∀ p ∈ writesFrom base i l, base + i ≤ p.1 := by
  induction l with
  | nil => intro i p hp; cases hp
  | cons w t ih =>
    intro i p hp
    rcases List.mem_cons.mp hp with h | h
    · subst h; exact Nat.le_refl _
    · have := ih (i + 1) p h
      omega

theorem noteRegionWrites_addr_ge (args : List (Digest × Word)) (i : Nat) (n : InputNote) :
    ∀ p ∈ noteRegionWrites args i n, noteBase i ≤ p.1 := by
  intro p hp
  unfold noteRegionWrites at hp
  rcases List.mem_append.mp hp with h | h
  · simp only [List.mem_cons, List.not_mem_nil, or_false] at h
    rcases h with rfl | rfl | rfl | rfl | rfl | rfl | rfl | rfl <;> exact Nat.le_add_right _ _
  · have := writesFrom_addr_ge (noteBase i + INPUT_NOTE_ASSETS_OFFSET) n.assets 0 p h
    omega

theorem noteBase_lt_succ (i : Nat) (k : Nat) (hk : k < INPUT_NOTE_STRIDE) :
    noteBase i + k < noteBase (i + 1) := by
  simp only [noteBase, INPUT_NOTE_STRIDE, INPUT_NOTE_SECTION_OFFSET] at *
  omega

theorem inputNotesWrites_addr_ge (args : List (Digest × Word)) (l : List InputNote) :
    ∀ i, ∀ p ∈ inputNotesWrites args i l, noteBase i ≤ p.1 := by
  induction l with
  | nil => intro i p hp; cases hp
  | cons n rest ih =>
    intro i p hp
    unfold inputNotesWrites at hp
    rcases List.mem_append.mp hp with h | h
    · exact noteRegionWrites_addr_ge args i n p h
    · have h1 := ih (i + 1) p h
      have h2 : noteBase i ≤ noteBase (i + 1) := by
        simp only [noteBase, INPUT_NOTE_STRIDE, INPUT_NOTE_SECTION_OFFSET]
        omega
      omega

theorem notesWrites_addr_ge (tx : TransactionInputs) :
    ∀ p ∈ notesWrites tx, INPUT_NOTE_SECTION_OFFSET ≤ p.1 := by
  intro p hp
  unfold notesWrites at hp
  rcases List.mem_cons.mp hp with rfl | h
  · exact Nat.le_refl _
  · rcases List.mem_append.mp h with h2 | h2
    · have := writesFrom_addr_ge (INPUT_NOTE_SECTION_OFFSET + 1)
        (tx.notes.map InputNote.nullifier) 0 p h2
      omega
    · have h3 := inputNotesWrites_addr_ge tx.noteArgs tx.notes 0 p h2
      have h4 : INPUT_NOTE_SECTION_OFFSET ≤ noteBase 0 := by
        simp only [noteBase, INPUT_NOTE_STRIDE, INPUT_NOTE_SECTION_OFFSET]
        omega
      omega

/-- Reading the args slot of note `j + k` after laying out the per-note
sub-regions of `l` from index `j` yields the args looked up for that note's
id. -/
theorem inputNotesWrites_args_read (args : List (Digest × Word)) (l : List InputNote) :
    ∀ j k m, (hk : k < l.length) →
      writeMany m (inputNotesWrites args j l) (noteArgsAddr (j + k))
        = argsFor args (l.get ⟨k, hk⟩).id := by
  induction l with
  | nil => intro j k m hk; exact absurd hk (by simp)
  | cons n rest ih =>
    intro j k m hk
    show writeMany m (noteRegionWrites args j n ++ inputNotesWrites args (j + 1) rest) _ = _
    rw [writeMany_append]
    cases k with
    | zero =>
      simp only [Nat.add_zero]
      have hne : ∀ p ∈ inputNotesWrites args (j + 1) rest, p.1 ≠ noteArgsAddr j := by
        intro p hp
        have h1 := inputNotesWrites_addr_ge args rest (j + 1) p hp
        have h2 : noteArgsAddr j < noteBase (j + 1) := by
          simp only [noteArgsAddr, INPUT_NOTE_ARGS_OFFSET]
          exact noteBase_lt_succ j 6 (by simp [INPUT_NOTE_STRIDE])
        omega
      rw [writeMany_skip _ _ _ hne]
      show writeMany m
        ([(noteBase j + INPUT_NOTE_ID_OFFSET, n.id),
          (noteBase j + INPUT_NOTE_SERIAL_NUM_OFFSET, n.serialNum),
          (noteBase j + INPUT_NOTE_SCRIPT_ROOT_OFFSET, n.scriptRoot),
          (noteBase j + INPUT_NOTE_INPUTS_HASH_OFFSET, n.inputsHash),
          (noteBase j + INPUT_NOTE_ASSETS_HASH_OFFSET, n.assetsHash),
          (noteBase j + INPUT_NOTE_METADATA_OFFSET, n.metadata),
          (noteBase j + INPUT_NOTE_ARGS_OFFSET, argsFor args n.id),
          (noteBase j + INPUT_NOTE_NUM_ASSETS_OFFSET, natWord n.assets.length)]
         ++ writesFrom (noteBase j + INPUT_NOTE_ASSETS_OFFSET) 0 n.assets) _ = _
      rw [writeMany_append]
      have hne2 : ∀ p ∈ writesFrom (noteBase j + INPUT_NOTE_ASSETS_OFFSET) 0 n.assets,
          p.1 ≠ noteArgsAddr j := by
        intro p hp
        have h1 := writesFrom_addr_ge (noteBase j + INPUT_NOTE_ASSETS_OFFSET) n.assets 0 p hp
        simp only [noteArgsAddr, INPUT_NOTE_ARGS_OFFSET, INPUT_NOTE_ASSETS_OFFSET] at *
        omega
      rw [writeMany_skip _ _ _ hne2]
      simp only [writeMany]
      have e1 : noteArgsAddr j = noteBase j + INPUT_NOTE_ARGS_OFFSET := by
        simp [noteArgsAddr]
      rw [e1]
      rw [mem_write_ne _ _ _ _ (by
        simp only [INPUT_NOTE_ARGS_OFFSET, INPUT_NOTE_NUM_ASSETS_OFFSET]
        omega)]
      exact mem_write_self _ _ _
    | succ k2 =>
      have e1 : j + (k2 + 1) = (j + 1) + k2 := by omega
      rw [e1]
      exact ih (j + 1) k2 _ (by simpa using hk)

/-- Inversion of a successful prologue build. -/
theorem buildMemory_ok {tx : TransactionInputs} {m : Mem}
    (h : buildMemory tx = .ok m) :
    validate tx = .ok () ∧ m = layoutMemory tx := by
  unfold buildMemory at h
  cases hv : validate tx with
  | error e => rw [hv] at h; cases h
  | ok u => cases u; rw [hv] at h; injection h with h2; exact ⟨rfl, h2.symm⟩

/-- A successful validation yields the laid-out memory image. -/
theorem buildMemory_of_validate {tx : TransactionInputs}
    (h : validate tx = .ok ()) : buildMemory tx = .ok (layoutMemory tx) := by
  unfold buildMemory
  rw [h]

/-- With the earlier checks passing, validation reduces to the account check
followed by the bounds check. -/
theorem validate_eq_of_checks {tx : TransactionInputs}
    (h1 : checkNoteCount tx = .ok ()) (h2 : checkNoDupNotes tx = .ok ())
    (h3 : checkChain tx = .ok ()) :
    validate tx = match checkAccount tx with
      | .error e => .error e
      | .ok _ => checkBounds tx := by
  unfold validate
  rw [h1, h2, h3]

theorem acctWrites_addr_ge (tx : TransactionInputs) :
    ∀ p ∈ acctWrites tx, NATIVE_ACCT_ID_AND_NONCE_PTR ≤ p.1 := by
  intro p hp
  unfold acctWrites at hp
  rcases List.mem_append.mp hp with h | h
  swap
  · have := writesFrom_addr_ge _ _ 0 p h
    simp only [NATIVE_ACCT_PROCEDURES_SECTION_PTR, NATIVE_ACCT_ID_AND_NONCE_PTR] at *
    omega
  rcases List.mem_append.mp h with h2 | h2
  swap
  · simp only [List.mem_singleton] at h2
    subst h2
    exact (by decide : NATIVE_ACCT_ID_AND_NONCE_PTR ≤ NATIVE_NUM_ACCT_PROCEDURES_PTR)
  rcases List.mem_append.mp h2 with h3 | h3
  swap
  · have := writesFrom_addr_ge _ _ 0 p h3
    simp only [NATIVE_ACCT_STORAGE_SLOTS_SECTION_PTR, NATIVE_ACCT_ID_AND_NONCE_PTR] at *
    omega
  simp only [List.mem_cons, List.not_mem_nil, or_false] at h3
  rcases h3 with rfl | rfl | rfl | rfl | rfl
  · exact Nat.le_refl _
  · exact (by decide : NATIVE_ACCT_ID_AND_NONCE_PTR ≤ NATIVE_ACCT_VAULT_ROOT_PTR)
  · exact (by decide : NATIVE_ACCT_ID_AND_NONCE_PTR ≤ NATIVE_ACCT_STORAGE_COMMITMENT_PTR)
  · exact (by decide : NATIVE_ACCT_ID_AND_NONCE_PTR ≤ NATIVE_ACCT_CODE_COMMITMENT_PTR)
  · exact (by decide : NATIVE_ACCT_ID_AND_NONCE_PTR ≤ NATIVE_NUM_ACCT_STORAGE_SLOTS_PTR)

theorem acctWrites_read_id (tx : TransactionInputs) (M : Mem) :
    writeMany M (acctWrites tx) NATIVE_ACCT_ID_AND_NONCE_PTR
      = ⟨tx.account.id, 0, 0, tx.account.nonce⟩ := by
  unfold acctWrites
  rw [writeMany_append, writeMany_append, writeMany_append]
  have hprocs : ∀ p ∈ writesFrom NATIVE_ACCT_PROCEDURES_SECTION_PTR 0
      (tx.account.code.procedures.flatMap fun q =>
        [q.root, ⟨q.storageOffset, q.storageSize, 0, 0⟩]),
      p.1 ≠ NATIVE_ACCT_ID_AND_NONCE_PTR := by
    intro p hp
    have := writesFrom_addr_ge _ _ 0 p hp
    simp only [NATIVE_ACCT_PROCEDURES_SECTION_PTR, NATIVE_ACCT_ID_AND_NONCE_PTR] at *
    omega
  rw [writeMany_skip _ _ _ hprocs]
  have hnp : ∀ p ∈ [(NATIVE_NUM_ACCT_PROCEDURES_PTR,
      natWord tx.account.code.procedures.length)],
      p.1 ≠ NATIVE_ACCT_ID_AND_NONCE_PTR := by
    intro p hp
    simp only [List.mem_singleton] at hp
    subst hp
    exact (by decide : NATIVE_NUM_ACCT_PROCEDURES_PTR ≠ NATIVE_ACCT_ID_AND_NONCE_PTR)
  rw [writeMany_skip _ _ _ hnp]
  have hslots : ∀ p ∈ writesFrom NATIVE_ACCT_STORAGE_SLOTS_SECTION_PTR 0
      tx.account.storage.slots, p.1 ≠ NATIVE_ACCT_ID_AND_NONCE_PTR := by
    intro p hp
    have := writesFrom_addr_ge _ _ 0 p hp
    simp only [NATIVE_ACCT_STORAGE_SLOTS_SECTION_PTR, NATIVE_ACCT_ID_AND_NONCE_PTR] at *
    omega
  rw [writeMany_skip _ _ _ hslots]
  simp only [writeMany]
  simp [Mem.write, NATIVE_ACCT_ID_AND_NONCE_PTR, NATIVE_ACCT_VAULT_ROOT_PTR,
    NATIVE_ACCT_STORAGE_COMMITMENT_PTR, NATIVE_ACCT_CODE_COMMITMENT_PTR,
    NATIVE_NUM_ACCT_STORAGE_SLOTS_PTR]

theorem chainWrites_read_len (tx : TransactionInputs) (M : Mem) :
    writeMany M (chainWrites tx) CHAIN_MMR_NUM_LEAVES_PTR
      = natWord ((tx.chainMmr.addBlock tx.blockHeader.hash true).chainLength) := by
  have hpeaks : ∀ p ∈ writesFrom CHAIN_MMR_PEAKS_PTR 0
      ((tx.chainMmr.addBlock tx.blockHeader.hash true).peaks),
      p.1 ≠ CHAIN_MMR_NUM_LEAVES_PTR := by
    intro p hp
    have := writesFrom_addr_ge _ _ 0 p hp
    simp only [CHAIN_MMR_PEAKS_PTR, CHAIN_MMR_NUM_LEAVES_PTR] at *
    omega
  show writeMany M
      ((CHAIN_MMR_NUM_LEAVES_PTR,
        natWord ((tx.chainMmr.addBlock tx.blockHeader.hash true).chainLength))
        :: writesFrom CHAIN_MMR_PEAKS_PTR 0
          ((tx.chainMmr.addBlock tx.blockHeader.hash true).peaks))
      CHAIN_MMR_NUM_LEAVES_PTR = _
  show writeMany (M.write CHAIN_MMR_NUM_LEAVES_PTR _) _ _ = _
  rw [writeMany_skip _ _ _ hpeaks]
  exact mem_write_self _ _ _

theorem layoutMemory_acct_id_nonce (tx : TransactionInputs) :
    layoutMemory tx NATIVE_ACCT_ID_AND_NONCE_PTR
      = ⟨tx.account.id, 0, 0, tx.account.nonce⟩ := by
  unfold layoutMemory layoutWrites
  rw [writeMany_append, writeMany_append, writeMany_append, writeMany_append]
  have hnotes : ∀ p ∈ notesWrites tx, p.1 ≠ NATIVE_ACCT_ID_AND_NONCE_PTR := by
    intro p hp
    have := notesWrites_addr_ge tx p hp
    simp only [INPUT_NOTE_SECTION_OFFSET, NATIVE_ACCT_ID_AND_NONCE_PTR] at *
    omega
  rw [writeMany_skip _ _ _ hnotes]
  exact acctWrites_read_id tx _

theorem layoutMemory_chain_len (tx : TransactionInputs) :
    layoutMemory tx CHAIN_MMR_NUM_LEAVES_PTR
      = natWord ((tx.chainMmr.addBlock tx.blockHeader.hash true).chainLength) := by
  unfold layoutMemory layoutWrites
  rw [writeMany_append, writeMany_append, writeMany_append, writeMany_append]
  have hnotes : ∀ p ∈ notesWrites tx, p.1 ≠ CHAIN_MMR_NUM_LEAVES_PTR := by
    intro p hp
    have := notesWrites_addr_ge tx p hp
    simp only [INPUT_NOTE_SECTION_OFFSET, CHAIN_MMR_NUM_LEAVES_PTR] at *
    omega
  rw [writeMany_skip _ _ _ hnotes]
  have hacct : ∀ p ∈ acctWrites tx, p.1 ≠ CHAIN_MMR_NUM_LEAVES_PTR := by
    intro p hp
    have := acctWrites_addr_ge tx p hp
    simp only [NATIVE_ACCT_ID_AND_NONCE_PTR, CHAIN_MMR_NUM_LEAVES_PTR] at *
    omega
  rw [writeMany_skip _ _ _ hacct]
  exact chainWrites_read_len tx _

theorem layoutMemory_note_args (tx : TransactionInputs) (i : Nat)
    (hi : i < tx.notes.length) :
    layoutMemory tx (noteArgsAddr i)
      = argsFor tx.noteArgs (tx.notes.get ⟨i, hi⟩).id := by
  unfold layoutMemory layoutWrites
  rw [writeMany_append, writeMany_append, writeMany_append, writeMany_append]
  unfold notesWrites
  rw [writeMany_append]
  have e : noteArgsAddr i = noteArgsAddr (0 + i) := by rw [Nat.zero_add]
  rw [e]
  exact inputNotesWrites_args_read tx.noteArgs tx.notes 0 i _ hi

-- CLAIM THEOREMS: NOTES
-- ===========================================================================

/-- C1: for every note, `Note::get_hash` returns `merge(recipient, vault_hash)`
where `recipient = merge(merge(merge(serial_num, [0;4]), script_hash),
inputs_hash)` — the four-level merge chain of the spec. -/
theorem note_get_hash_is_merge_chain (n : Note) :
    n.get_hash = Hasher.merge (specRecipient n) n.vault.hash ∧
    specRecipient n =
      Hasher.merge (Hasher.merge (Hasher.merge n.serial_num zeroWord) n.script.hash)
        n.inputs.hash := by
  exact ⟨rfl, rfl⟩

/-- C1 witness: the merge-chain identity evaluated at a concrete note. -/
theorem note_get_hash_is_merge_chain_witness :
    ({ script := ⟨⟨9, 9, 9, 9⟩⟩, inputs := ⟨[1, 2]⟩,
       vault := ⟨[.fungible 5 7]⟩, serial_num := ⟨1, 2, 3, 4⟩ } : Note).get_hash
      = Hasher.merge
          (specRecipient
            { script := ⟨⟨9, 9, 9, 9⟩⟩, inputs := ⟨[1, 2]⟩,
              vault := ⟨[.fungible 5 7]⟩, serial_num := ⟨1, 2, 3, 4⟩ })
          (NoteVault.hash ⟨[.fungible 5 7]⟩) :=
  (note_get_hash_is_merge_chain _).1

/-- C2: for every note, `Note::get_nullifier` is `hash_elements` of the
concatenation serial number, script hash, inputs hash, vault hash — exactly 16
field elements in that fixed order. -/
theorem note_get_nullifier_is_hash_elements (n : Note) :
    n.get_nullifier =
      Hasher.hashElements
        (n.serial_num.toList ++ n.script.hash.toList ++ n.inputs.hash.toList ++
          n.vault.hash.toList) ∧
    (n.serial_num.toList ++ n.script.hash.toList ++ n.inputs.hash.toList ++
        n.vault.hash.toList).length = 16 := by
  exact ⟨rfl, rfl⟩

/-- C2 witness: the nullifier identity evaluated at a concrete note. -/
theorem note_get_nullifier_is_hash_elements_witness :
    ({ script := ⟨⟨9, 9, 9, 9⟩⟩, inputs := ⟨[1, 2]⟩,
       vault := ⟨[.fungible 5 7]⟩, serial_num := ⟨1, 2, 3, 4⟩ } : Note).get_nullifier
      = Hasher.hashElements
          (Note.nullifierPreimage
            { script := ⟨⟨9, 9, 9, 9⟩⟩, inputs := ⟨[1, 2]⟩,
              vault := ⟨[.fungible 5 7]⟩, serial_num := ⟨1, 2, 3, 4⟩ }) :=
  (note_get_nullifier_is_hash_elements _).1

/-- C8: for every note, the nullifier differs from the note hash.  (The
non-recoverability of the nullifier from the note hash is the one-wayness
assumption on the external hash primitive; in the model the domain separation
between `merge` and `hash_elements` keeps the two digests apart for every
note.) -/
theorem note_nullifier_ne_note_hash (n : Note) :
    n.get_nullifier ≠ n.get_hash := by
  intro h
  have h0 : Nat.pair 2 (encodeFeltList n.nullifierPreimage)
      = Nat.pair 1 (Nat.pair (encodeFeltList (Hasher.merge (Hasher.merge
          (Hasher.merge n.serial_num Digest.default) n.script.hash)
          n.inputs.hash).toList) (encodeFeltList n.vault.hash.toList)) :=
    congrArg Word.e0 h
  exact absurd (Nat.pair_eq_pair.mp h0).1 (by decide)

/-- C7 evidence: `Note::new` accepts a 17-element inputs slice.  The doc
comment of `Note::new` promises an error when the number of inputs exceeds 16,
but `NoteInputs::new` is called without error propagation and cannot fail, so
the note is built successfully. -/
theorem note_new_seventeen_inputs_ok :
    (Note.new "begin nop end" (List.replicate 17 0) [] zeroWord).isOk = true := by
  rfl

-- CLAIM THEOREMS: PROLOGUE
-- ===========================================================================

/-- C3: with an account-creation seed present (and the earlier validator
checks passing), the prologue fails with the seed-digest-mismatch error when
the id recomputed by `derive_id(seed, code_commitment, storage_commitment)`
differs from the declared account id, and succeeds with a matching seed (and
the remaining checks passing). -/
theorem prologue_seed_check (tx : TransactionInputs) (seed : Word)
    (hseed : tx.accountSeed = some seed) (hnonce : tx.account.nonce = 0)
    (h1 : checkNoteCount tx = .ok ()) (h2 : checkNoDupNotes tx = .ok ())
    (h3 : checkChain tx = .ok ()) :
    (derive_id seed tx.account.code.commitment tx.account.storage.commitment
        ≠ tx.account.id →
      buildMemory tx = .error .AccountSeedDigestMismatch)
    ∧ (derive_id seed tx.account.code.commitment tx.account.storage.commitment
        = tx.account.id →
      checkReservedSlot tx.account = .ok () → checkBounds tx = .ok () →
      (buildMemory tx).isOk = true) := by
  have hval := validate_eq_of_checks h1 h2 h3
  constructor
  · intro hne
    have hacct : checkAccount tx = .error .AccountSeedDigestMismatch := by
      unfold checkAccount
      rw [hseed]
      simp [hnonce, hne]
    unfold buildMemory
    rw [hval, hacct]
  · intro heq hslot hbounds
    have hacct : checkAccount tx = .ok () := by
      unfold checkAccount
      rw [hseed]
      simp [hnonce, heq, hslot]
    unfold buildMemory
    rw [hval, hacct, hbounds]
    rfl

/-- C3 witness: a mismatching seed fails with the seed-digest-mismatch error
and a matching seed builds successfully, at concrete inputs. -/
theorem prologue_seed_check_witness :
    buildMemory txSeedBad = .error .AccountSeedDigestMismatch
    ∧ (buildMemory txFungOk).isOk = true := by
  constructor
  · exact (prologue_seed_check txSeedBad seedFung rfl rfl rfl rfl rfl).1 (by decide)
  · exact (prologue_seed_check txFungOk seedFung rfl rfl rfl rfl rfl).2 rfl rfl rfl

/-- C4: a newly created fungible faucet (valid seed, earlier checks passing)
fails with the fungible-reserved-slot-must-be-empty error exactly when storage
slot 0 is not the all-zero word, and the build succeeds when it is. -/
theorem prologue_fungible_faucet_slot0 (tx : TransactionInputs) (seed : Word)
    (hseed : tx.accountSeed = some seed) (hnonce : tx.account.nonce = 0)
    (hderive : derive_id seed tx.account.code.commitment
      tx.account.storage.commitment = tx.account.id)
    (hfung : accountTypeOf tx.account.id = .fungibleFaucet)
    (h1 : checkNoteCount tx = .ok ()) (h2 : checkNoDupNotes tx = .ok ())
    (h3 : checkChain tx = .ok ()) (h5 : checkBounds tx = .ok ()) :
    (tx.account.storage.slot0 ≠ zeroWord →
      buildMemory tx = .error .FungibleFaucetReservedSlotMustBeEmpty)
    ∧ (tx.account.storage.slot0 = zeroWord → (buildMemory tx).isOk = true) := by
  have hval := validate_eq_of_checks h1 h2 h3
  constructor
  · intro hslot
    have hres : checkReservedSlot tx.account
        = .error .FungibleFaucetReservedSlotMustBeEmpty := by
      unfold checkReservedSlot
      rw [hfung]
      simp [hslot]
    have hacct : checkAccount tx
        = .error .FungibleFaucetReservedSlotMustBeEmpty := by
      unfold checkAccount
      rw [hseed]
      simp [hnonce, hderive, hres]
    unfold buildMemory
    rw [hval, hacct]
  · intro hslot
    have hres : checkReservedSlot tx.account = .ok () := by
      unfold checkReservedSlot
      rw [hfung]
      simp [hslot]
    have hacct : checkAccount tx = .ok () := by
      unfold checkAccount
      rw [hseed]
      simp [hnonce, hderive, hres]
    unfold buildMemory
    rw [hval, hacct, h5]
    rfl

/-- C4 witness: a new fungible faucet with a non-empty slot 0 fails with the
fungible-reserved-slot error and one with an all-zero slot 0 builds, at
concrete inputs. -/
theorem prologue_fungible_faucet_slot0_witness :
    buildMemory txFungBad = .error .FungibleFaucetReservedSlotMustBeEmpty
    ∧ (buildMemory txFungOk).isOk = true := by
  constructor
  · exact (prologue_fungible_faucet_slot0 txFungBad seedFung rfl rfl rfl rfl
      rfl rfl rfl rfl).1 (by decide)
  · exact (prologue_fungible_faucet_slot0 txFungOk seedFung rfl rfl rfl rfl
      rfl rfl rfl rfl).2 rfl

/-- C5: a newly created non-fungible faucet (valid seed, earlier checks
passing) fails with the non-fungible-reserved-slot error exactly when storage
slot 0 differs from the canonical empty-SMT digest, and the build succeeds
when it equals it. -/
theorem prologue_non_fungible_faucet_slot0 (tx : TransactionInputs) (seed : Word)
    (hseed : tx.accountSeed = some seed) (hnonce : tx.account.nonce = 0)
    (hderive : derive_id seed tx.account.code.commitment
      tx.account.storage.commitment = tx.account.id)
    (hnf : accountTypeOf tx.account.id = .nonFungibleFaucet)
    (h1 : checkNoteCount tx = .ok ()) (h2 : checkNoDupNotes tx = .ok ())
    (h3 : checkChain tx = .ok ()) (h5 : checkBounds tx = .ok ()) :
    (tx.account.storage.slot0 ≠ EMPTY_SMT_ROOT →
      buildMemory tx = .error .NonFungibleFaucetReservedSlotMustBeValidEmptySmt)
    ∧ (tx.account.storage.slot0 = EMPTY_SMT_ROOT →
      (buildMemory tx).isOk = true) := by
  have hval := validate_eq_of_checks h1 h2 h3
  constructor
  · intro hslot
    have hres : checkReservedSlot tx.account
        = .error .NonFungibleFaucetReservedSlotMustBeValidEmptySmt := by
      unfold checkReservedSlot
      rw [hnf]
      simp [hslot]
    have hacct : checkAccount tx
        = .error .NonFungibleFaucetReservedSlotMustBeValidEmptySmt := by
      unfold checkAccount
      rw [hseed]
      simp [hnonce, hderive, hres]
    unfold buildMemory
    rw [hval, hacct]
  · intro hslot
    have hres : checkReservedSlot tx.account = .ok () := by
      unfold checkReservedSlot
      rw [hnf]
      simp [hslot]
    have hacct : checkAccount tx = .ok () := by
      unfold checkAccount
      rw [hseed]
      simp [hnonce, hderive, hres]
    unfold buildMemory
    rw [hval, hacct, h5]
    rfl

/-- C5 witness: a new non-fungible faucet whose slot 0 differs from the
canonical empty-SMT digest fails with the non-fungible-reserved-slot error and
one whose slot 0 equals it builds, at concrete inputs. -/
theorem prologue_non_fungible_faucet_slot0_witness :
    buildMemory txNonFungBad
      = .error .NonFungibleFaucetReservedSlotMustBeValidEmptySmt
    ∧ (buildMemory txNonFungOk).isOk = true := by
  constructor
  · exact (prologue_non_fungible_faucet_slot0 txNonFungBad seedNonFung rfl rfl
      rfl rfl rfl rfl rfl rfl).1 (by decide)
  · exact (prologue_non_fungible_faucet_slot0 txNonFungOk seedNonFung rfl rfl
      rfl rfl rfl rfl rfl rfl).2 rfl

/-- C6: after every finite sequence of `add_block` calls from the empty chain
tracker, the number of peaks equals the population count of the chain length;
and the prologue writes at the chain-leaf-count pointer the leaf count of a
local copy of the tracker extended with the current reference block. -/
theorem chain_peaks_popcount_and_leaf_count (bs : List (Digest × Bool))
    (tx : TransactionInputs) (m : Mem) (h : buildMemory tx = .ok m) :
    ((bs.foldl (fun acc p => acc.addBlock p.1 p.2) ChainMmr.empty).peaks).length
      = popcount
          ((bs.foldl (fun acc p => acc.addBlock p.1 p.2) ChainMmr.empty).chainLength)
    ∧ m CHAIN_MMR_NUM_LEAVES_PTR
      = natWord ((tx.chainMmr.addBlock tx.blockHeader.hash true).chainLength) := by
  constructor
  · have hwf := chainMmr_foldl_wf bs ChainMmr.empty chainMmr_empty_wf
    have hlen := peaks_length_eq_popcount _ 0 hwf.1
    simp only [ChainMmr.peaks, ChainMmr.chainLength, List.length_map,
      List.length_reverse]
    rw [hlen, hwf.2]
  · rcases buildMemory_ok h with ⟨hv, rfl⟩
    exact layoutMemory_chain_len tx

/-- C6 witness: the peak-count identity after three concrete `add_block`
calls, and the chain-leaf-count word of a concrete build. -/
theorem chain_peaks_popcount_and_leaf_count_witness :
    ((wBlocks.foldl (fun acc p => acc.addBlock p.1 p.2) ChainMmr.empty).peaks).length
      = popcount
          ((wBlocks.foldl (fun acc p => acc.addBlock p.1 p.2) ChainMmr.empty).chainLength)
    ∧ layoutMemory txExisting CHAIN_MMR_NUM_LEAVES_PTR
      = natWord ((txExisting.chainMmr.addBlock txExisting.blockHeader.hash
          true).chainLength) :=
  chain_peaks_popcount_and_leaf_count wBlocks txExisting
    (layoutMemory txExisting) rfl

/-- C9: for every input note (by its position in the caller-supplied order),
the prologue writes at the note's args offset inside its per-note sub-region
the caller-supplied args word for that note's id, the all-zero word when none
was supplied. -/
theorem prologue_note_args_lookup (tx : TransactionInputs) (m : Mem) (i : Nat)
    (h : buildMemory tx = .ok m) (hi : i < tx.notes.length) :
    m (noteArgsAddr i) = argsFor tx.noteArgs (tx.notes.get ⟨i, hi⟩).id := by
  rcases buildMemory_ok h with ⟨hv, rfl⟩
  exact layoutMemory_note_args tx i hi

/-- C9 witness: in a concrete build with two notes, the note with supplied
args reads them back at its args offset and the note without reads the
all-zero word. -/
theorem prologue_note_args_lookup_witness :
    layoutMemory txNotes (noteArgsAddr 0) = ⟨91, 91, 91, 91⟩
    ∧ layoutMemory txNotes (noteArgsAddr 1) = zeroWord := by
  constructor
  · exact (prologue_note_args_lookup txNotes (layoutMemory txNotes) 0 rfl
      (by decide)).trans (by rfl)
  · exact (prologue_note_args_lookup txNotes (layoutMemory txNotes) 1 rfl
      (by decide)).trans (by rfl)

/-- C10: the prologue packs the account id and nonce into a single word at the
account id-and-nonce pointer with the id as element 0, the nonce as element 3,
and elements 1 and 2 zero. -/
theorem prologue_acct_id_nonce_packing (tx : TransactionInputs) (m : Mem)
    (h : buildMemory tx = .ok m) :
    m NATIVE_ACCT_ID_AND_NONCE_PTR = ⟨tx.account.id, 0, 0, tx.account.nonce⟩ := by
  rcases buildMemory_ok h with ⟨hv, rfl⟩
  exact layoutMemory_acct_id_nonce tx

/-- C10 witness: the id-and-nonce packing of a concrete build. -/
theorem prologue_acct_id_nonce_packing_witness :
    layoutMemory txExisting NATIVE_ACCT_ID_AND_NONCE_PTR
      = ⟨txExisting.account.id, 0, 0, txExisting.account.nonce⟩ :=
  prologue_acct_id_nonce_packing txExisting (layoutMemory txExisting) rfl
